import Mathlib

/-!
Verification of the go-repo-manager core (`internal/repo/github_service.go` and
`internal/commands`) against its specification.

The GitHub REST API is modelled by explicit response traces: each paginated
listing endpoint is represented by the list of responses the service receives,
in the order the pagination loop visits them (each response carries the items
of one page and the `NextPage` cursor; `NextPage = 0` marks the last page).
Fallible API calls are `Except String` values; Go `nil` pointers are `Option`.
Concurrency note: the fan-out/fan-in executor collects per-repository results
in nondeterministic completion order; the properties verified here (counts,
memberships, partition invariants) are invariant under reordering, so the
executor is modelled by processing the discovered repositories in dispatch
order with a per-repository operation `op` that is a function of the
repository name, exactly as the Go closure is.
-/

/-- Mirrors `github.Issue` as used by the service: the `State` pointer
(`GetState` yields `""` when nil) and the `PullRequestLinks` pointer whose
nil-ness distinguishes real issues from pull requests. -/
structure Issue where
  State : Option String
  PullRequestLinks : Option String
deriving Repr, DecidableEq

/-- `issue.GetState()` of go-github: the zero value `""` when the pointer is nil. -/
def Issue.getState (i : Issue) : String :=
  i.State.getD ""

/-- One response of `Issues.ListByRepo`: the page of issues and `resp.NextPage`. -/
structure IssuesResponse where
  Issues : List Issue
  NextPage : Nat
deriving Repr, DecidableEq

/-- Mirrors `github.Repository` as used by the service: only the `Name` pointer. -/
structure Repository where
  Name : Option String
deriving Repr, DecidableEq

/-- `repo.GetName()` of go-github: the zero value `""` when the pointer is nil. -/
def Repository.getName (r : Repository) : String :=
  r.Name.getD ""

/-- One response of `Repositories.ListByUser` / `Repositories.ListByOrg`:
the page of repositories and `resp.NextPage`. -/
structure ReposResponse where
  Repos : List Repository
  NextPage : Nat
deriving Repr, DecidableEq

/-- Mirrors `repo.IssueStats`. -/
structure IssueStats where
  RepoName : String
  TotalIssues : Nat
  OpenIssues : Nat
  ClosedIssues : Nat
deriving Repr, DecidableEq

/-- Go `strings.HasPrefix(s, pre)`: the bytes of `pre` are a prefix of the
bytes of `s`; for valid strings this coincides with character-level prefix,
so it is modelled on the character lists. -/
def goHasPre (s pre : String) : Bool :=
  pre.data.isPrefixOf s.data

/-- The body of the per-issue loop of `GetIssueStatsForRepo`
(github_service.go:180-190): pull requests (non-nil `PullRequestLinks`) are
skipped; a non-PR issue increments `TotalIssues` and then exactly one of
`OpenIssues` (state equal to "open") or `ClosedIssues` (any other state). -/
def updateStats (stats : IssueStats) (issue : Issue) : IssueStats :=
  if issue.PullRequestLinks = none then
    let stats := { stats with TotalIssues := stats.TotalIssues + 1 }
    if issue.getState = "open" then
      { stats with OpenIssues := stats.OpenIssues + 1 }
    else
      { stats with ClosedIssues := stats.ClosedIssues + 1 }
  else
    stats

/-- The pagination loop of `GetIssueStatsForRepo` (github_service.go:174-197)
over the trace of `ListByRepo` responses: a failing call aborts with the
wrapped error; otherwise the page's issues are folded into the stats and the
loop continues until `NextPage = 0`. -/
def issueLoop (owner repoName : String) : IssueStats → List (Except String IssuesResponse) → Except String IssueStats
  | stats, [] => .ok stats
  | _, .error e :: _ =>
      .error ("failed to list issues for " ++ owner ++ "/" ++ repoName ++ ": " ++ e)
  | stats, .ok page :: rest =>
      let stats := page.Issues.foldl updateStats stats
      if page.NextPage = 0 then .ok stats else issueLoop owner repoName stats rest

/-- `GetIssueStatsForRepo` (github_service.go:155-200): the initial
`Repositories.Get` existence check (its outcome is `repoGet`), then the
issue pagination loop starting from zeroed stats. -/
def getIssueStatsForRepo (repoGet : Except String Unit)
    (pages : List (Except String IssuesResponse)) (owner repoName : String) :
    Except String IssueStats :=
  match repoGet with
  | .error e => .error ("failed to get repository " ++ owner ++ "/" ++ repoName ++ ": " ++ e)
  | .ok _ => issueLoop owner repoName { RepoName := repoName, TotalIssues := 0, OpenIssues := 0, ClosedIssues := 0 } pages

/-- The shared pagination loop body of `getUserRepositoriesWithPrefix` and
`getOrgRepositoriesWithPrefix` (github_service.go:222-239 and 253-270); the
two Go functions differ only in the error-message context `errCtx`. A failing
page aborts with the wrapped error; otherwise the page's repositories whose
name starts with `pre` are appended and the loop continues until
`NextPage = 0`. -/
def repoListLoop (errCtx pre : String) : List Repository → List (Except String ReposResponse) → Except String (List Repository)
  | acc, [] => .ok acc
  | _, .error e :: _ => .error (errCtx ++ e)
  | acc, .ok page :: rest =>
      let acc := acc ++ page.Repos.filter (fun repo => goHasPre repo.getName pre)
      if page.NextPage = 0 then .ok acc else repoListLoop errCtx pre acc rest

/-- `getUserRepositoriesWithPrefix` (github_service.go:213-242). -/
def getUserRepositoriesMatching (owner pre : String)
    (trace : List (Except String ReposResponse)) : Except String (List Repository) :=
  repoListLoop ("failed to list repositories for user " ++ owner ++ ": ") pre [] trace

/-- `getOrgRepositoriesWithPrefix` (github_service.go:244-273). -/
def getOrgRepositoriesMatching (owner pre : String)
    (trace : List (Except String ReposResponse)) : Except String (List Repository) :=
  repoListLoop ("failed to list repositories for org " ++ owner ++ ": ") pre [] trace

/-- `GetRepositoriesWithPrefix` (github_service.go:203-211): dispatch on `isUser`. -/
def getRepositoriesMatching (owner pre : String) (isUser : Bool)
    (trace : List (Except String ReposResponse)) : Except String (List Repository) :=
  if isUser then
    getUserRepositoriesMatching owner pre trace
  else
    getOrgRepositoriesMatching owner pre trace

/-- `GetIssueStatsForReposWithPrefix` (github_service.go:276-322), Policy A.
`op` is the per-repository operation dispatched once per discovered name (the
Go closure around `GetIssueStatsForRepo`); failed operations are logged and
dropped, successful stats are collected, and the batch itself returns no
error. The concurrent completion order is abstracted to dispatch order (the
claims proved below are order-invariant). -/
def getIssueStatsForReposMatching (trace : List (Except String ReposResponse))
    (op : String → Except String IssueStats) (owner pre : String) (isUser : Bool) :
    Except String (List IssueStats) :=
  match getRepositoriesMatching owner pre isUser trace with
  | .error e => .error e
  | .ok repos =>
    if repos.length = 0 then
      .ok []
    else
      .ok (repos.filterMap (fun repo => (op repo.getName).toOption))

/-- Mirrors `github.RepositoryContent` as used: only the `SHA` pointer. -/
structure RepositoryContent where
  SHA : Option String
deriving Repr, DecidableEq

/-- Mirrors `github.Response` as used: only `StatusCode`. -/
structure GoResponse where
  StatusCode : Nat
deriving Repr, DecidableEq

/-- The four-part outcome of `Repositories.GetContents` as consumed by
`CreateOrUpdateFile` (the directory-content return is ignored by the code). -/
structure GetContentsResult where
  fileContent : Option RepositoryContent
  resp : Option GoResponse
  err : Option String
deriving Repr, DecidableEq

/-- Mirrors `github.RepositoryContentFileOptions` as filled in by
`CreateOrUpdateFile` (github_service.go:348-352). -/
structure RepositoryContentFileOptions where
  Message : String
  Content : String
  SHA : Option String
deriving Repr, DecidableEq

/-- `http.StatusNotFound`. -/
def statusNotFound : Nat := 404

/-- The `Repositories.CreateFile` call of `CreateOrUpdateFile`
(github_service.go:348-362): records the write performed (with the options
the code builds) and wraps a failing write's error. `createFileErr` is the
API outcome of the write. -/
def goCreateFile (sha : Option String) (createFileErr : Option String)
    (owner repoName filePath content commitMessage : String) :
    List RepositoryContentFileOptions × Option String :=
  let opts : RepositoryContentFileOptions := { Message := commitMessage, Content := content, SHA := sha }
  match createFileErr with
  | some e => ([opts], some ("failed to create/update file " ++ owner ++ "/" ++ repoName ++ ":" ++ filePath ++ ": " ++ e))
  | none => ([opts], none)

/-- `CreateOrUpdateFile` (github_service.go:325-363). The result is the list
of write calls performed paired with the returned error; `none` marks the Go
nil-pointer dereference that would panic (read succeeded but `fileContent`
or its `SHA` is nil — unreachable for a successful file read of the real
API). A read error with a non-nil 404 response leads to a create with nil
SHA; a successful read leads to an update carrying the prior SHA; any other
read error aborts with no write performed. -/
def createOrUpdateFile (contents : GetContentsResult) (createFileErr : Option String)
    (owner repoName filePath content commitMessage : String) :
    Option (List RepositoryContentFileOptions × Option String) :=
  match contents.err with
  | some e =>
    match contents.resp with
    | some r =>
      if r.StatusCode = statusNotFound then
        some (goCreateFile none createFileErr owner repoName filePath content commitMessage)
      else
        some ([], some ("failed to check if file exists " ++ owner ++ "/" ++ repoName ++ ":" ++ filePath ++ ": " ++ e))
    | none => some ([], some ("failed to check if file exists " ++ owner ++ "/" ++ repoName ++ ":" ++ filePath ++ ": " ++ e))
  | none =>
    match contents.fileContent with
    | none => none
    | some fc =>
      match fc.SHA with
      | none => none
      | some s => some (goCreateFile (some s) createFileErr owner repoName filePath content commitMessage)

/-- `AddCodeownersToReposWithPrefix` (github_service.go:366-420), Policy B.
`op` is the per-repository upsert outcome keyed by name (`none` = success,
`some e` = failure), as produced by the Go closure around
`CreateOrUpdateFile`; names are partitioned into the success and failure
lists. Completion order is abstracted to dispatch order (the claims proved
below are order-invariant). -/
def addCodeownersToReposMatching (trace : List (Except String ReposResponse))
    (op : String → Option String) (owner pre : String) (isUser : Bool)
    (codeownersContent : String) : Except String (List String × List String) :=
  match getRepositoriesMatching owner pre isUser trace with
  | .error e => .error e
  | .ok repos =>
    if repos.length = 0 then
      .ok ([], [])
    else
      let successRepos := (repos.filter (fun r => (op r.getName).isNone)).map (fun r => r.getName)
      let failedRepos := (repos.filter (fun r => (op r.getName).isSome)).map (fun r => r.getName)
      .ok (successRepos, failedRepos)

/-- The service state retained by the model: `maxConcurrency`
(github_service.go:109-113). -/
structure GitHubService where
  maxConcurrency : Int
deriving Repr, DecidableEq

/-- `defaultConcurrency` (github_service.go:17). -/
def defaultConcurrency : Int := 10

/-- `NewGitHubServiceWithLogger` (github_service.go:128-139): a
non-positive `maxConcurrency` is replaced by the default. -/
def newGitHubServiceWithLogger (maxConcurrency : Int) : GitHubService :=
  let maxConcurrency := if maxConcurrency ≤ 0 then defaultConcurrency else maxConcurrency
  { maxConcurrency := maxConcurrency }

/-- `NewGitHubServiceWithConcurrency` (github_service.go:121-125). -/
def newGitHubServiceWithConcurrency (maxConcurrency : Int) : GitHubService :=
  newGitHubServiceWithLogger maxConcurrency

/-- `NewGitHubService` (github_service.go:116-118): default concurrency of 1. -/
def newGitHubService : GitHubService :=
  newGitHubServiceWithConcurrency 1

/-- The client as the model retains it: the auth token it was built with,
or `none` for the unauthenticated client. -/
structure GitHubClientModel where
  authToken : Option String
deriving Repr, DecidableEq

/-- `NewGitHubClient` (github_service.go:142-152): a non-empty token yields
an authenticated client, an empty token a plain (unauthenticated) client —
never an error. -/
def newGitHubClient (token : String) : GitHubClientModel :=
  if token ≠ "" then { authToken := some token } else { authToken := none }

/-- The flags registered by `newGetIssueCountCmd`
(get_issue_count.go:64-68): note there is no `username` flag. -/
def getIssueCountFlagNames : List String :=
  ["repo", "repo-prefix", "org", "token", "concurrency"]

/-- The flags registered by `newCodeownersCmd` (codeowners command,
flag registration block). -/
def codeownersFlagNames : List String :=
  ["repo", "repo-prefix", "org", "username", "token", "concurrency", "codeowner-file"]

/-- What the `get-issue-count` RunE hands to the service layer once
validation and client construction succeed. -/
structure GetIssueCountInvocation where
  client : GitHubClientModel
  org : String
  repoName : String
  repoPre : String
deriving Repr, DecidableEq

/-- The `get-issue-count` RunE body (get_issue_count.go:27-61) up to the
dispatch to the service: `--org` is required, `--repo` and `--repo-prefix`
are mutually exclusive, the token falls back to the `GITHUB_TOKEN`
environment value (`envToken`) and a client is constructed from it even when
it is empty. -/
def runGetIssueCountCmd (repoName repoPre org token envToken : String) :
    Except String GetIssueCountInvocation :=
  if org = "" then
    .error "organization (--org) is required"
  else if repoName ≠ "" ∧ repoPre ≠ "" then
    .error "cannot specify both --repo and --repo-prefix"
  else
    let token := if token = "" then envToken else token
    .ok { client := newGitHubClient token, org := org, repoName := repoName, repoPre := repoPre }

/-- `validateCodeownersFlags` (codeowners command): exactly one of
`--org`/`--username`, at most one of `--repo`/`--repo-prefix`, and
`--codeowner-file` required. -/
def validateCodeownersFlags (org username repoName repoPre codeownersFile : String) : Option String :=
  if org = "" ∧ username = "" then
    some "either organization (--org) or username (--username) is required"
  else if org ≠ "" ∧ username ≠ "" then
    some "cannot specify both --org and --username"
  else if repoName ≠ "" ∧ repoPre ≠ "" then
    some "cannot specify both --repo and --repo-prefix"
  else if codeownersFile = "" then
    some "codeowners file path (--codeowner-file) is required"
  else
    none

/-- What the `codeowners` command hands to the service layer once
validation, file reading and token resolution succeed. -/
structure CodeownersInvocation where
  client : GitHubClientModel
  token : String
  owner : String
  isUser : Bool
  repoName : String
  repoPre : String
  content : String
deriving Repr, DecidableEq

/-- `runCodeownersCommand` (codeowners command) up to the dispatch to the
service: flag validation, reading the CODEOWNERS file (`fileRead` is that
read's outcome), token fallback to `GITHUB_TOKEN` (`envToken`), rejection of
an empty effective token, and owner/kind resolution. -/
def runCodeownersCommand (repoName repoPre org username token codeownersFile : String)
    (fileRead : Except String String) (envToken : String) :
    Except String CodeownersInvocation :=
  match validateCodeownersFlags org username repoName repoPre codeownersFile with
  | some e => .error e
  | none =>
    match fileRead with
    | .error e => .error ("failed to read CODEOWNERS file: " ++ e)
    | .ok content =>
      let token := if token = "" then envToken else token
      if token = "" then
        .error "GitHub token (--token) is required or must be set in GITHUB_TOKEN environment variable"
      else
        let owner := if username ≠ "" then username else org
        let isUser := if username ≠ "" then true else false
        .ok { client := newGitHubClient token, token := token, owner := owner,
              isUser := isUser, repoName := repoName, repoPre := repoPre, content := content }

/-- Specification-side characterisation of discovery (§4.1, §8): the
repositories of every page the pagination loop visits, unfiltered, in
upstream order. Used to state that the implementation returns exactly the
visited repositories whose names match the prefix. -/
def specVisited : List (Except String ReposResponse) → List Repository
  | [] => []
  | .error _ :: _ => []
  | .ok page :: rest => page.Repos ++ (if page.NextPage = 0 then [] else specVisited rest)

/-! ### Helper lemmas -/

theorem updateStats_inv (s : IssueStats) (i : Issue)
    (h : s.TotalIssues = s.OpenIssues + s.ClosedIssues) :
    (updateStats s i).TotalIssues = (updateStats s i).OpenIssues + (updateStats s i).ClosedIssues := by
  unfold updateStats
  split
  · split <;> simp <;> omega
  · exact h

theorem foldl_updateStats_inv (l : List Issue) :
    ∀ s : IssueStats, s.TotalIssues = s.OpenIssues + s.ClosedIssues →
      (l.foldl updateStats s).TotalIssues =
        (l.foldl updateStats s).OpenIssues + (l.foldl updateStats s).ClosedIssues := by
  induction l with
  | nil => intro s hs; exact hs
  | cons i l ih => intro s hs; exact ih (updateStats s i) (updateStats_inv s i hs)

theorem issueLoop_ok_inv (owner repoName : String) (pages : List (Except String IssuesResponse)) :
    ∀ s stats, s.TotalIssues = s.OpenIssues + s.ClosedIssues →
      issueLoop owner repoName s pages = .ok stats →
      stats.TotalIssues = stats.OpenIssues + stats.ClosedIssues := by
  induction pages with
  | nil =>
    intro s stats hs h
    simp only [issueLoop, Except.ok.injEq] at h
    exact h ▸ hs
  | cons p rest ih =>
    intro s stats hs h
    match p with
    | .error e => simp [issueLoop] at h
    | .ok page =>
      simp only [issueLoop] at h
      split at h
      · simp only [Except.ok.injEq] at h
        exact h ▸ foldl_updateStats_inv page.Issues s hs
      · exact ih _ _ (foldl_updateStats_inv page.Issues s hs) h

theorem updateStats_pr (s : IssueStats) (i : Issue) (h : i.PullRequestLinks ≠ none) :
    updateStats s i = s := by
  unfold updateStats
  simp [h]

theorem foldl_updateStats_filter (l : List Issue) :
    ∀ s : IssueStats,
      (l.filter (fun i => i.PullRequestLinks.isNone)).foldl updateStats s = l.foldl updateStats s := by
  induction l with
  | nil => intro s; rfl
  | cons i l ih =>
    intro s
    by_cases h : i.PullRequestLinks = none
    · simp [List.filter_cons, h, ih]
    · simp [List.filter_cons, Option.isNone_iff_eq_none, h, ih, updateStats_pr s i h]

/-- The issue pages with the pull-request entries removed: used to state
that pull requests are counted in no field. -/
def dropPRPages (pages : List (Except String IssuesResponse)) : List (Except String IssuesResponse) :=
  pages.map (fun page =>
    match page with
    | .error e => .error e
    | .ok p => .ok { Issues := p.Issues.filter (fun i => i.PullRequestLinks.isNone), NextPage := p.NextPage })

theorem issueLoop_dropPR (owner repoName : String) (pages : List (Except String IssuesResponse)) :
    ∀ s : IssueStats, issueLoop owner repoName s (dropPRPages pages) = issueLoop owner repoName s pages := by
  induction pages with
  | nil => intro s; rfl
  | cons p rest ih =>
    intro s
    match p with
    | .error e => rfl
    | .ok page =>
      simp only [dropPRPages, List.map_cons, issueLoop, foldl_updateStats_filter]
      split
    
      · rfl
      · exact ih _

/-! ### C1 -/

/-- C1: for every issue list returned by the API, `GetIssueStatsForRepo`
counts only issues without a pull-request linkage; each non-PR issue
increments `TotalIssues` and exactly one of `OpenIssues` (state
case-sensitively equal to "open") or `ClosedIssues` (any other state); the
returned stats satisfy `TotalIssues = OpenIssues + ClosedIssues`, and
entries with a pull-request linkage are counted in no field (removing them
from every page leaves the result unchanged). -/
theorem c1_issue_stats_invariant (repoGet : Except String Unit)
    (pages : List (Except String IssuesResponse)) (owner repoName : String)
    (stats : IssueStats)
    (h : getIssueStatsForRepo repoGet pages owner repoName = .ok stats) :
    stats.TotalIssues = stats.OpenIssues + stats.ClosedIssues ∧
    getIssueStatsForRepo repoGet (dropPRPages pages) owner repoName = .ok stats ∧
    (∀ s i, i.PullRequestLinks ≠ none → updateStats s i = s) ∧
    (∀ s i, i.PullRequestLinks = none →
      (updateStats s i).TotalIssues = s.TotalIssues + 1 ∧
      (i.getState = "open" →
        (updateStats s i).OpenIssues = s.OpenIssues + 1 ∧
        (updateStats s i).ClosedIssues = s.ClosedIssues) ∧
      (i.getState ≠ "open" →
        (updateStats s i).ClosedIssues = s.ClosedIssues + 1 ∧
        (updateStats s i).OpenIssues = s.OpenIssues)) := by
  match hrg : repoGet with
  | .error e => simp [getIssueStatsForRepo] at h
  | .ok _ =>
    simp only [getIssueStatsForRepo] at h
    refine ⟨issueLoop_ok_inv owner repoName pages _ stats rfl h, ?_, ?_, ?_⟩
    · simpa only [getIssueStatsForRepo, issueLoop_dropPR] using h
    · intro s i hi
      exact updateStats_pr s i hi
    · intro s i hi
      refine ⟨?_, ?_, ?_⟩
      · unfold updateStats
        simp only [hi, if_pos]
        split <;> simp
      · intro hst
        unfold updateStats
        simp [hi, hst]
      · intro hst
        unfold updateStats
        simp [hi, hst]

/-- Concrete issue pages for the C1 witness: the spec's worked example
(§8, scenario 1) — issues [open/non-PR, closed/non-PR, open/non-PR,
closed/PR] on a single page. -/
def c1Pages : List (Except String IssuesResponse) :=
  [.ok { Issues := [ { State := some "open", PullRequestLinks := none },
                     { State := some "closed", PullRequestLinks := none },
                     { State := some "open", PullRequestLinks := none },
                     { State := some "closed", PullRequestLinks := some "https://example.com/pr/1" } ],
         NextPage := 0 }]

theorem c1_issue_stats_invariant_witness :
    (IssueStats.mk "widget" 3 2 1).TotalIssues =
      (IssueStats.mk "widget" 3 2 1).OpenIssues + (IssueStats.mk "widget" 3 2 1).ClosedIssues ∧
    getIssueStatsForRepo (.ok ()) (dropPRPages c1Pages) "acme" "widget" = .ok (IssueStats.mk "widget" 3 2 1) :=
  ⟨(c1_issue_stats_invariant (.ok ()) c1Pages "acme" "widget" (IssueStats.mk "widget" 3 2 1) rfl).1,
   (c1_issue_stats_invariant (.ok ()) c1Pages "acme" "widget" (IssueStats.mk "widget" 3 2 1) rfl).2.1⟩

/-! ### Discovery lemmas (C5, C6) -/

theorem repoListLoop_ok_eq (errCtx pre : String) (trace : List (Except String ReposResponse)) :
    ∀ acc l, repoListLoop errCtx pre acc trace = .ok l →
      l = acc ++ (specVisited trace).filter (fun r => goHasPre r.getName pre) := by
  induction trace with
  | nil =>
    intro acc l h
    simp only [repoListLoop, Except.ok.injEq] at h
    simp [specVisited, ← h]
  | cons p rest ih =>
    intro acc l h
    match p with
    | .error e => simp [repoListLoop] at h
    | .ok page =>
      simp only [repoListLoop] at h
      by_cases hn : page.NextPage = 0
      · rw [if_pos hn] at h
        simp only [Except.ok.injEq] at h
        simp [specVisited, hn, ← h, List.filter_append]
      · rw [if_neg hn] at h
        have := ih _ _ h
        simp [specVisited, hn, this, List.filter_append, List.append_assoc]

theorem goHasPre_empty (s : String) : goHasPre s "" = true := by
  simp [goHasPre, show ("" : String).data = [] from rfl]

/-! ### C5 -/

/-- C5: for every owner and prefix, discovery returns exactly those
repositories among the pages the upstream listing returned whose name starts
with the prefix (case-sensitive), accumulated across all pages in upstream
order; the empty prefix matches every repository, so prefix "" returns the
full listing. -/
theorem c5_discovery_exact (owner pre : String) (isUser : Bool)
    (trace : List (Except String ReposResponse)) (l : List Repository)
    (h : getRepositoriesMatching owner pre isUser trace = .ok l) :
    l = (specVisited trace).filter (fun r => goHasPre r.getName pre) ∧
    (pre = "" → l = specVisited trace) := by
  have hl : l = (specVisited trace).filter (fun r => goHasPre r.getName pre) := by
    unfold getRepositoriesMatching getUserRepositoriesMatching getOrgRepositoriesMatching at h
    split at h
    · simpa using repoListLoop_ok_eq _ pre trace [] l h
    · simpa using repoListLoop_ok_eq _ pre trace [] l h
  refine ⟨hl, ?_⟩
  intro hpre
  subst hpre
  simpa [goHasPre_empty] using hl

/-- Concrete discovery trace for the C5 witness: the spec's scenario 2
(owner "acme", repositories [test-a, test-b, other], prefix "test-"),
split over two pages to exercise pagination. -/
def c5Trace : List (Except String ReposResponse) :=
  [.ok { Repos := [ { Name := some "test-a" }, { Name := some "other" } ], NextPage := 2 },
   .ok { Repos := [ { Name := some "test-b" } ], NextPage := 0 }]

theorem c5_discovery_exact_witness :
    [Repository.mk (some "test-a"), Repository.mk (some "test-b")] =
      (specVisited c5Trace).filter (fun r => goHasPre r.getName "test-") :=
  (c5_discovery_exact "acme" "test-" false c5Trace
    [Repository.mk (some "test-a"), Repository.mk (some "test-b")] rfl).1

/-! ### C6 -/

theorem repoListLoop_error_eq (errCtx pre : String) (e : String)
    (rest : List (Except String ReposResponse)) :
    ∀ good : List (Except String ReposResponse),
      (∀ p ∈ good, ∃ page, p = .ok page ∧ page.NextPage ≠ 0) →
      ∀ acc, repoListLoop errCtx pre acc (good ++ .error e :: rest) = .error (errCtx ++ e) := by
  intro good
  induction good with
  | nil => intro _ acc; rfl
  | cons p good ih =>
    intro hgood acc
    obtain ⟨page, hp, hn⟩ := hgood p (List.mem_cons_self p good)
    subst hp
    simp only [List.cons_append, repoListLoop, if_neg hn]
    exact ih (fun q hq => hgood q (List.mem_cons_of_mem (Except.ok page) hq)) _

/-- C6 counterexample: the claim says the surfaced discovery error carries
the owner *and page* context; the code (github_service.go:225, 256) attaches
only the owner. A listing failure on page 1 and the same failure on page 2
surface byte-identical errors, so the error cannot carry any page context. -/
theorem c6_counterexample :
    getUserRepositoriesMatching "alice" "" [.error "boom"] =
      getUserRepositoriesMatching "alice" ""
        [.ok { Repos := [ { Name := some "r1" } ], NextPage := 2 }, .error "boom"] ∧
    getUserRepositoriesMatching "alice" "" [.error "boom"] =
      .error "failed to list repositories for user alice: boom" := by
  exact ⟨rfl, rfl⟩

/-- C6 (amended): a listing failure on any visited page aborts the whole
discovery — the result is an error, never a partial repository list — and
the surfaced error attaches the owner context and wraps the underlying
error; the page number itself is not attached. -/
theorem c6_discovery_error_aborts (owner pre : String) (isUser : Bool)
    (good rest : List (Except String ReposResponse)) (e : String)
    (hgood : ∀ p ∈ good, ∃ page, p = .ok page ∧ page.NextPage ≠ 0) :
    getRepositoriesMatching owner pre isUser (good ++ .error e :: rest) =
      .error ((if isUser then "failed to list repositories for user " ++ owner ++ ": "
               else "failed to list repositories for org " ++ owner ++ ": ") ++ e) ∧
    ∀ l, getRepositoriesMatching owner pre isUser (good ++ .error e :: rest) ≠ .ok l := by
  have herr : getRepositoriesMatching owner pre isUser (good ++ .error e :: rest) =
      .error ((if isUser then "failed to list repositories for user " ++ owner ++ ": "
               else "failed to list repositories for org " ++ owner ++ ": ") ++ e) := by
    cases isUser with
    | false =>
      simp only [getRepositoriesMatching, if_neg (Bool.false_ne_true), if_false]
      exact repoListLoop_error_eq _ pre e rest good hgood []
    | true =>
      simp only [getRepositoriesMatching, if_true]
      exact repoListLoop_error_eq _ pre e rest good hgood []
  refine ⟨herr, ?_⟩
  intro l
  rw [herr]
  simp

theorem c6_discovery_error_aborts_witness :
    getRepositoriesMatching "alice" "t" true
        ([.ok { Repos := [], NextPage := 2 }] ++ .error "boom" :: []) =
      .error ((if true then "failed to list repositories for user " ++ "alice" ++ ": "
               else "failed to list repositories for org " ++ "alice" ++ ": ") ++ "boom") :=
  (c6_discovery_error_aborts "alice" "t" true [.ok { Repos := [], NextPage := 2 }] [] "boom"
    (fun p hp => by
      rw [List.mem_singleton] at hp
      exact ⟨{ Repos := [], NextPage := 2 }, hp, by decide⟩)).1

/-! ### Counting lemmas for the batch executor -/

theorem length_filterMap_add_countP_none {α β : Type} (f : α → Option β) (l : List α) :
    (l.filterMap f).length + l.countP (fun a => (f a).isNone) = l.length := by
  induction l with
  | nil => rfl
  | cons a l ih =>
    cases hfa : f a <;> simp [List.filterMap_cons, hfa, List.countP_cons] <;> omega

theorem length_filter_add_length_filter_not {α : Type} (p : α → Bool) (l : List α) :
    (l.filter p).length + (l.filter (fun a => !(p a))).length = l.length := by
  induction l with
  | nil => rfl
  | cons a l ih => by_cases h : p a <;> simp [List.filter_cons, h] <;> omega

/-! ### C2 -/

/-- C2: for every batch of M discovered repositories, Policy A returns the
collection of the M−K successful stats when K of the M per-repository
operations fail, with no error for the batch itself; M = 0 yields the empty
result with no error. -/
theorem c2_policyA_counts (trace : List (Except String ReposResponse))
    (op : String → Except String IssueStats) (owner pre : String) (isUser : Bool)
    (repos : List Repository)
    (h : getRepositoriesMatching owner pre isUser trace = .ok repos) :
    ∃ l, getIssueStatsForReposMatching trace op owner pre isUser = .ok l ∧
      l.length + repos.countP (fun r => (op r.getName).toOption.isNone) = repos.length ∧
      l.length = repos.length - repos.countP (fun r => (op r.getName).toOption.isNone) ∧
      (repos.length = 0 → l = []) := by
  simp only [getIssueStatsForReposMatching, h]
  by_cases h0 : repos.length = 0
  · rw [if_pos h0]
    have he : repos = [] := List.length_eq_zero.mp h0
    subst he
    exact ⟨[], rfl, by simp, by simp, fun _ => rfl⟩
  · rw [if_neg h0]
    refine ⟨_, rfl, ?_, ?_, fun hc => absurd hc h0⟩
    · exact length_filterMap_add_countP_none _ repos
    · have := length_filterMap_add_countP_none (fun repo => (op repo.getName).toOption) repos
      omega

/-- Concrete discovery trace for the batch witnesses: the spec's scenario 3
(five repositories, two induced failures). -/
def batchTrace5 : List (Except String ReposResponse) :=
  [.ok { Repos := [ { Name := some "r1" }, { Name := some "r2" }, { Name := some "r3" },
                    { Name := some "r4" }, { Name := some "r5" } ], NextPage := 0 }]

/-- The repositories `batchTrace5` discovers. -/
def batchRepos5 : List Repository :=
  [ { Name := some "r1" }, { Name := some "r2" }, { Name := some "r3" },
    { Name := some "r4" }, { Name := some "r5" } ]

/-- Per-repository issue-stat operation with induced failures on r2 and r4. -/
def c2Op : String → Except String IssueStats :=
  fun name =>
    if name = "r2" ∨ name = "r4" then .error "induced failure"
    else .ok { RepoName := name, TotalIssues := 0, OpenIssues := 0, ClosedIssues := 0 }

theorem c2_policyA_counts_witness :
    ∃ l, getIssueStatsForReposMatching batchTrace5 c2Op "acme" "" false = .ok l ∧
      l.length + batchRepos5.countP (fun r => (c2Op r.getName).toOption.isNone) = batchRepos5.length ∧
      l.length = batchRepos5.length - batchRepos5.countP (fun r => (c2Op r.getName).toOption.isNone) ∧
      (batchRepos5.length = 0 → l = []) :=
  c2_policyA_counts batchTrace5 c2Op "acme" "" false batchRepos5 rfl

/-! ### C3 -/

/-- C3: for every batch of M discovered repositories, Policy B partitions
them: the success-list length plus the failure-list length equals M, and
each discovered repository's name appears in exactly one of the two lists. -/
theorem c3_policyB_partition (trace : List (Except String ReposResponse))
    (op : String → Option String) (owner pre : String) (isUser : Bool)
    (content : String) (repos : List Repository)
    (h : getRepositoriesMatching owner pre isUser trace = .ok repos) :
    ∃ s f, addCodeownersToReposMatching trace op owner pre isUser content = .ok (s, f) ∧
      s.length + f.length = repos.length ∧
      ∀ r ∈ repos, (r.getName ∈ s ∧ r.getName ∉ f) ∨ (r.getName ∈ f ∧ r.getName ∉ s) := by
  simp only [addCodeownersToReposMatching, h]
  by_cases h0 : repos.length = 0
  · rw [if_pos h0]
    have he : repos = [] := List.length_eq_zero.mp h0
    subst he
    exact ⟨[], [], rfl, rfl, by simp⟩
  · rw [if_neg h0]
    refine ⟨_, _, rfl, ?_, ?_⟩
    · rw [List.length_map, List.length_map]
      have hc : (fun r : Repository => (op r.getName).isSome) =
          (fun r : Repository => !((op r.getName).isNone)) := by
        funext r
        cases op r.getName <;> rfl
      rw [hc]
      exact length_filter_add_length_filter_not _ repos
    · intro r hr
      cases hopc : op r.getName with
      | none =>
        left
        constructor
        · exact List.mem_map.mpr ⟨r, List.mem_filter.mpr ⟨hr, by simp [hopc]⟩, rfl⟩
        · intro hmem
          obtain ⟨q, hq, hqn⟩ := List.mem_map.mp hmem
          have h2 := (List.mem_filter.mp hq).2
          rw [hqn, hopc] at h2
          simp at h2
      | some e =>
        right
        constructor
        · exact List.mem_map.mpr ⟨r, List.mem_filter.mpr ⟨hr, by simp [hopc]⟩, rfl⟩
        · intro hmem
          obtain ⟨q, hq, hqn⟩ := List.mem_map.mp hmem
          have h2 := (List.mem_filter.mp hq).2
          rw [hqn, hopc] at h2
          simp at h2

/-- Per-repository upsert outcome with induced failures on r2 and r4. -/
def c3Op : String → Option String :=
  fun name => if name = "r2" ∨ name = "r4" then some "induced failure" else none

theorem c3_policyB_partition_witness :
    ∃ s f, addCodeownersToReposMatching batchTrace5 c3Op "acme" "" false "owners" = .ok (s, f) ∧
      s.length + f.length = batchRepos5.length ∧
      ∀ r ∈ batchRepos5, (r.getName ∈ s ∧ r.getName ∉ f) ∨ (r.getName ∈ f ∧ r.getName ∉ s) :=
  c3_policyB_partition batchTrace5 c3Op "acme" "" false "owners" batchRepos5 rfl

/-! ### C10 -/

/-- C10: when discovery finds zero matching repositories, Policy B returns
the empty success list, the empty failure list and no error, mirroring
Policy A's M = 0 behaviour. -/
theorem c10_empty_batch (trace : List (Except String ReposResponse))
    (opB : String → Option String) (opA : String → Except String IssueStats)
    (owner pre : String) (isUser : Bool) (content : String)
    (h : getRepositoriesMatching owner pre isUser trace = .ok []) :
    addCodeownersToReposMatching trace opB owner pre isUser content = .ok ([], []) ∧
    getIssueStatsForReposMatching trace opA owner pre isUser = .ok [] := by
  simp only [addCodeownersToReposMatching, getIssueStatsForReposMatching, h]
  exact ⟨rfl, rfl⟩

theorem c10_empty_batch_witness :
    addCodeownersToReposMatching [.ok { Repos := [], NextPage := 0 }] c3Op "acme" "zzz" false "owners" =
      .ok ([], []) ∧
    getIssueStatsForReposMatching [.ok { Repos := [], NextPage := 0 }] c2Op "acme" "zzz" false =
      .ok [] :=
  c10_empty_batch [.ok { Repos := [], NextPage := 0 }] c3Op c2Op "acme" "zzz" false "owners" rfl

/-! ### C4 -/

/-- C4: for every invocation of `CreateOrUpdateFile` — if the initial read
fails with a not-found condition (non-nil response with status 404) the
single write performed is a create carrying no revision marker (nil SHA);
if the read succeeds (delivering the file and its SHA) the single write
carries that prior SHA; and if the read fails for any other reason the
operation aborts with that error wrapped and performs no write. -/
theorem c4_upsert_branches (contents : GetContentsResult) (createFileErr : Option String)
    (owner repoName filePath content commitMessage : String) :
    (∀ e r, contents.err = some e → contents.resp = some r → r.StatusCode = statusNotFound →
      ∃ res, createOrUpdateFile contents createFileErr owner repoName filePath content commitMessage =
        some ([{ Message := commitMessage, Content := content, SHA := none }], res)) ∧
    (∀ fc s, contents.err = none → contents.fileContent = some fc → fc.SHA = some s →
      ∃ res, createOrUpdateFile contents createFileErr owner repoName filePath content commitMessage =
        some ([{ Message := commitMessage, Content := content, SHA := some s }], res)) ∧
    (∀ e, contents.err = some e → (∀ r, contents.resp = some r → r.StatusCode ≠ statusNotFound) →
      createOrUpdateFile contents createFileErr owner repoName filePath content commitMessage =
        some ([], some ("failed to check if file exists " ++ owner ++ "/" ++ repoName ++ ":" ++
          filePath ++ ": " ++ e))) := by
  refine ⟨?_, ?_, ?_⟩
  · intro e r he hr hst
    simp only [createOrUpdateFile, he, hr, if_pos hst]
    cases createFileErr <;> exact ⟨_, rfl⟩
  · intro fc s he hfc hs
    simp only [createOrUpdateFile, he, hfc, hs]
    cases createFileErr <;> exact ⟨_, rfl⟩
  · intro e he hnr
    simp only [createOrUpdateFile, he]
    cases hr : contents.resp with
    | none => rfl
    | some r => simp [hnr r hr]

theorem c4_upsert_branches_witness :
    (∃ res, createOrUpdateFile { fileContent := none, resp := some { StatusCode := 404 }, err := some "Not Found" }
        none "acme" "widget" ".github/CODEOWNERS" "owners" "Add/Update CODEOWNERS file" =
      some ([{ Message := "Add/Update CODEOWNERS file", Content := "owners", SHA := none }], res)) ∧
    (∃ res, createOrUpdateFile { fileContent := some { SHA := some "abc123" }, resp := some { StatusCode := 200 }, err := none }
        none "acme" "widget" ".github/CODEOWNERS" "owners" "Add/Update CODEOWNERS file" =
      some ([{ Message := "Add/Update CODEOWNERS file", Content := "owners", SHA := some "abc123" }], res)) ∧
    createOrUpdateFile { fileContent := none, resp := none, err := some "boom" }
        none "acme" "widget" ".github/CODEOWNERS" "owners" "Add/Update CODEOWNERS file" =
      some ([], some ("failed to check if file exists " ++ "acme" ++ "/" ++ "widget" ++ ":" ++
        ".github/CODEOWNERS" ++ ": " ++ "boom")) :=
  ⟨(c4_upsert_branches { fileContent := none, resp := some { StatusCode := 404 }, err := some "Not Found" }
      none "acme" "widget" ".github/CODEOWNERS" "owners" "Add/Update CODEOWNERS file").1
      "Not Found" { StatusCode := 404 } rfl rfl rfl,
   (c4_upsert_branches { fileContent := some { SHA := some "abc123" }, resp := some { StatusCode := 200 }, err := none }
      none "acme" "widget" ".github/CODEOWNERS" "owners" "Add/Update CODEOWNERS file").2.1
      { SHA := some "abc123" } "abc123" rfl rfl rfl,
   (c4_upsert_branches { fileContent := none, resp := none, err := some "boom" }
      none "acme" "widget" ".github/CODEOWNERS" "owners" "Add/Update CODEOWNERS file").2.2
      "boom" rfl (fun r hr => by cases hr)⟩

/-! ### C7 -/

/-- C7: a concurrency limit N ≤ 0 passed when constructing the service is
coerced to the documented default of 10; every N ≥ 1 is kept unchanged
(`NewGitHubServiceWithConcurrency` delegates to the same constructor). -/
theorem c7_concurrency_coercion (n : Int) :
    (newGitHubServiceWithLogger n).maxConcurrency = (if n ≤ 0 then defaultConcurrency else n) ∧
    defaultConcurrency = 10 ∧
    newGitHubServiceWithConcurrency n = newGitHubServiceWithLogger n ∧
    (1 ≤ n → (newGitHubServiceWithLogger n).maxConcurrency = n) := by
  refine ⟨rfl, rfl, rfl, ?_⟩
  intro h1
  simp only [newGitHubServiceWithLogger]
  rw [if_neg (by omega)]

theorem c7_concurrency_coercion_witness :
    (newGitHubServiceWithLogger 5).maxConcurrency = 5 :=
  (c7_concurrency_coercion 5).2.2.2 (by decide)

/-! ### C8 -/

/-- C8 counterexample: the claim says both subcommands accept exactly one
of `--org`/`--username`; but `newGetIssueCountCmd` registers no `username`
flag at all (get_issue_count.go:64-68) — only `codeowners` does — and the
`get-issue-count` validation demands `--org` unconditionally. -/
theorem c8_counterexample :
    "username" ∉ getIssueCountFlagNames ∧
    "username" ∈ codeownersFlagNames ∧
    runGetIssueCountCmd "" "" "" "tok" "" = .error "organization (--org) is required" :=
  ⟨by decide, by decide, rfl⟩

/-- C8 (amended): `codeowners` accepts exactly one of `--org`/`--username`
and at most one of `--repo`/`--repo-prefix` (plus a required
`--codeowner-file`), with validation failures reported before any client
construction; `get-issue-count` has no `--username` flag — it requires
`--org` — and likewise rejects combining `--repo` with `--repo-prefix`. -/
theorem c8_flag_validation (org username repoName repoPre file token envToken : String)
    (fileRead : Except String String) :
    (validateCodeownersFlags org username repoName repoPre file = none ↔
      ((org = "" ∧ username ≠ "") ∨ (org ≠ "" ∧ username = "")) ∧
      (repoName = "" ∨ repoPre = "") ∧ file ≠ "") ∧
    ((∃ inv, runGetIssueCountCmd repoName repoPre org token envToken = .ok inv) ↔
      org ≠ "" ∧ (repoName = "" ∨ repoPre = "")) ∧
    (∀ e, validateCodeownersFlags org username repoName repoPre file = some e →
      runCodeownersCommand repoName repoPre org username token file fileRead envToken = .error e) := by
  refine ⟨?_, ?_, ?_⟩
  · unfold validateCodeownersFlags
    split_ifs with h1 h2 h3 h4
    · simp [h1.1, h1.2]
    · simp [h2.1, h2.2]
    · simp [h3.1, h3.2]
    · simp [h4]
    · simp only [true_iff]
      constructor
      · tauto
      · constructor
        · tauto
        · tauto
  · unfold runGetIssueCountCmd
    split_ifs with h1 h2
    · simp [h1]
    · simp [h1, h2.1, h2.2]
    all_goals
      constructor
      · intro _
        exact ⟨h1, by tauto⟩
      · intro _
        exact ⟨_, rfl⟩
  · intro e he
    simp [runCodeownersCommand, he]

theorem c8_flag_validation_witness :
    runCodeownersCommand "" "" "" "" "tok" "OWNERS" (.ok "x") "" =
      .error "either organization (--org) or username (--username) is required" :=
  (c8_flag_validation "" "" "" "" "OWNERS" "tok" "" (.ok "x")).2.2
    "either organization (--org) or username (--username) is required" rfl

/-! ### C9 -/

/-- C9 counterexample: the claim says that for both subcommands an empty
token is not an error; but `runCodeownersCommand` rejects an empty effective
token outright, while `get-issue-count` does proceed with an unauthenticated
client. -/
theorem c9_counterexample :
    runCodeownersCommand "" "" "acme" "" "" "OWNERS" (.ok "x") "" =
      .error "GitHub token (--token) is required or must be set in GITHUB_TOKEN environment variable" ∧
    runGetIssueCountCmd "" "" "acme" "" "" =
      .ok { client := { authToken := none }, org := "acme", repoName := "", repoPre := "" } :=
  ⟨rfl, rfl⟩

/-- C9 (amended): both subcommands fall back to the `GITHUB_TOKEN`
environment value when `--token` is absent; for `get-issue-count` an empty
token is not an error — a client is still constructed, unauthenticated —
while for `codeowners` an empty effective token is an input-validation error
raised before any client is constructed. -/
theorem c9_token_handling (repoName repoPre org username file envToken content : String)
    (fileRead : Except String String) :
    runGetIssueCountCmd repoName repoPre org "" envToken =
      runGetIssueCountCmd repoName repoPre org envToken envToken ∧
    runCodeownersCommand repoName repoPre org username "" file fileRead envToken =
      runCodeownersCommand repoName repoPre org username envToken file fileRead envToken ∧
    (newGitHubClient "").authToken = none ∧
    (org ≠ "" → (repoName = "" ∨ repoPre = "") →
      ∃ inv, runGetIssueCountCmd repoName repoPre org "" "" = .ok inv ∧
        inv.client.authToken = none) ∧
    (validateCodeownersFlags org username repoName repoPre file = none →
      runCodeownersCommand repoName repoPre org username "" file (.ok content) "" =
        .error "GitHub token (--token) is required or must be set in GITHUB_TOKEN environment variable") := by
  refine ⟨?_, ?_, rfl, ?_, ?_⟩
  · simp [runGetIssueCountCmd]
  · cases hv : validateCodeownersFlags org username repoName repoPre file with
    | some e => simp [runCodeownersCommand, hv]
    | none =>
      cases fileRead with
      | error e => simp [runCodeownersCommand, hv]
      | ok c => simp [runCodeownersCommand, hv]
  · intro horg hrepo
    refine ⟨{ client := newGitHubClient "", org := org, repoName := repoName, repoPre := repoPre },
      ?_, rfl⟩
    simp only [runGetIssueCountCmd, if_neg horg]
    rw [if_neg (show ¬(repoName ≠ "" ∧ repoPre ≠ "") by tauto)]
    rfl
  · intro hv
    simp [runCodeownersCommand, hv]

theorem c9_token_handling_witness :
    (∃ inv, runGetIssueCountCmd "" "" "acme" "" "" = .ok inv ∧ inv.client.authToken = none) ∧
    runCodeownersCommand "" "" "acme" "" "" "OWNERS" (.ok "x") "" =
      .error "GitHub token (--token) is required or must be set in GITHUB_TOKEN environment variable" :=
  ⟨(c9_token_handling "" "" "acme" "" "OWNERS" "" "x" (.ok "x")).2.2.2.1 (by decide) (Or.inl rfl),
   (c9_token_handling "" "" "acme" "" "OWNERS" "" "x" (.ok "x")).2.2.2.2 rfl⟩
